import Mathlib

/-!
Verification of the scoring-completeness analysis engine of the
TGAScoringAudit repository (`tga_scoring_audit/analysis/scoring.py`).

The engine receives JSON-like tee-sheet payloads.  We embed the dynamic
values the engine manipulates as the inductive type `Value` below
(null / bool / integer / string / list / mapping with string keys, the
shapes produced by the JSON decoder for this API; floating-point numbers
are not used by the payloads the engine documents and are not modelled).
Python lists become `ValueList`, Python dicts become `ValueDict`
(association lists, first binding wins, matching dict lookup on the
unique-key dicts the decoder produces).

Exceptions are embedded with `Except String`: a Python statement that can
raise becomes a computation in `Except String`, carrying `str(e)`.
-/

namespace TGA

mutual

inductive Value where
  | null : Value
  | bool (b : Bool) : Value
  | int (n : ℤ) : Value
  | str (s : String) : Value
  | list (xs : ValueList) : Value
  | dict (kvs : ValueDict) : Value

inductive ValueList where
  | nil : ValueList
  | cons (v : Value) (rest : ValueList) : ValueList

inductive ValueDict where
  | nil : ValueDict
  | cons (k : String) (v : Value) (rest : ValueDict) : ValueDict

end

/-- Convert an embedded Python list to a Lean list of values. -/
def ValueList.toList : ValueList → List Value
  | .nil => []
  | .cons v rest => v :: rest.toList

/-- Build an embedded Python list from a Lean list of values. -/
def ValueList.ofList : List Value → ValueList
  | [] => .nil
  | v :: rest => .cons v (ValueList.ofList rest)

/-- Build an embedded Python dict from a Lean association list. -/
def ValueDict.ofList : List (String × Value) → ValueDict
  | [] => .nil
  | (k, v) :: rest => .cons k v (ValueDict.ofList rest)

/-- Shorthand for a Python list literal. -/
def vlist (xs : List Value) : Value := .list (ValueList.ofList xs)

/-- Shorthand for a Python dict literal. -/
def vdict (kvs : List (String × Value)) : Value := .dict (ValueDict.ofList kvs)

/-- Python dict lookup (`d[k]` when present): first binding for the key. -/
def ValueDict.lookup : ValueDict → String → Option Value
  | .nil, _ => Option.none
  | .cons k v rest, key => if k == key then some v else rest.lookup key

/-- Python truthiness of a dict: `not d` holds iff it has no bindings. -/
def ValueDict.isEmpty : ValueDict → Bool
  | .nil => true
  | .cons _ _ _ => false

mutual

/-- Python `str(value)`.  String contents are emitted verbatim (the repr
escaping of quotes and control characters inside nested strings is not
modelled; the engine only tests emptiness after stripping and equality
with the two-character text `\x7b\x7d`). -/
def pyStr : Value → String
  | .null => "None"
  | .bool b => if b then "True" else "False"
  | .int n => toString n
  | .str s => s
  | .list xs => "[" ++ pyStrListItems xs ++ "]"
  | .dict kvs => "\x7b" ++ pyStrDictItems kvs ++ "\x7d"

/-- Python `repr(value)` as used for elements nested in a container. -/
def pyRepr : Value → String
  | .null => "None"
  | .bool b => if b then "True" else "False"
  | .int n => toString n
  | .str s => "\x27" ++ s ++ "\x27"
  | .list xs => "[" ++ pyStrListItems xs ++ "]"
  | .dict kvs => "\x7b" ++ pyStrDictItems kvs ++ "\x7d"

/-- Comma-separated reprs of the elements of a list. -/
def pyStrListItems : ValueList → String
  | .nil => ""
  | .cons v .nil => pyRepr v
  | .cons v (.cons w rest) => pyRepr v ++ ", " ++ pyStrListItems (.cons w rest)

/-- Comma-separated `key: value` reprs of the bindings of a dict. -/
def pyStrDictItems : ValueDict → String
  | .nil => ""
  | .cons k v .nil => "\x27" ++ k ++ "\x27: " ++ pyRepr v
  | .cons k v (.cons k2 w rest) =>
      "\x27" ++ k ++ "\x27: " ++ pyRepr v ++ ", " ++ pyStrDictItems (.cons k2 w rest)

end

/-- The whitespace characters removed by Python `str.strip()` (ASCII;
the payloads contain no exotic Unicode spacing). -/
def pyIsSpace (c : Char) : Bool :=
  c == ' ' || c == '\t' || c == '\n' || c == '\r' || c == '\x0b' || c == '\x0c'

/-- Drop leading whitespace from a character list. -/
def dropLeadingWS : List Char → List Char
  | [] => []
  | c :: rest => if pyIsSpace c then dropLeadingWS rest else c :: rest

/-- Python `s.strip()`: remove leading and trailing whitespace. -/
def pyStrip (s : String) : String :=
  String.mk (dropLeadingWS (dropLeadingWS s.data).reverse).reverse

/-- Digits-only decimal reading used by `int(string)`. -/
def digitsToNat (ds : List Char) : Option ℕ :=
  if ds ≠ [] ∧ ds.all (fun c => c.isDigit) then
    some (ds.foldl (fun acc c => 10 * acc + (c.toNat - 48)) 0)
  else Option.none

/-- Python `int(s)` on a string: surrounding whitespace is stripped, an
optional single sign precedes a non-empty digit run.  (Underscore digit
grouping is not modelled; no payload value uses it.) -/
def parseIntStr (s : String) : Option ℤ :=
  match (pyStrip s).data with
  | [] => Option.none
  | '+' :: ds => (digitsToNat ds).map (fun n => (n : ℤ))
  | '-' :: ds => (digitsToNat ds).map (fun n => -(n : ℤ))
  | ds => (digitsToNat ds).map (fun n => (n : ℤ))

/-- Python `int(value)` (`Option.none` when `int()` raises
`ValueError`/`TypeError`, which the engine catches). -/
def pyToInt : Value → Option ℤ
  | .int n => some n
  | .bool b => some (if b then 1 else 0)
  | .str s => parseIntStr s
  | _ => Option.none

/-- The skip test of `_has_valid_scores`:
`score is None or score == "" or score == 0 or score == \x7b\x7d`
together with `isinstance(score, dict) and not score`.
Note `False == 0` holds in Python, and only an empty dict equals `\x7b\x7d`. -/
def pySkip : Value → Bool
  | .null => true
  | .str s => s == ""
  | .int n => n == 0
  | .bool b => !b
  | .dict kvs => kvs.isEmpty
  | .list _ => false

/-- One iteration of the `_has_valid_scores` loop body: `true` iff the
element makes the slice valid (causes `return True` in the source). -/
def validScore (score : Value) : Bool :=
  if pySkip score then false
  else
    match pyToInt score with
    | some n => decide (1 ≤ n) && decide (n ≤ 15)
    | Option.none =>
        !(pyStrip (pyStr score) == "") && !(pyStr score == "\x7b\x7d")

/-- `ScoringAnalyzer._has_valid_scores`: at least one element of the slice
is a valid recorded score. -/
def has_valid_scores : List Value → Bool
  | [] => false
  | score :: rest => if validScore score then true else has_valid_scores rest

/-- Does `needle` occur at the head of `hay`? -/
def charsMatchAt : List Char → List Char → Bool
  | [], _ => true
  | _ :: _, [] => false
  | c :: cs, d :: ds => c == d && charsMatchAt cs ds

/-- Does `needle` occur anywhere in `hay`? -/
def charsSub (needle : List Char) : List Char → Bool
  | [] => charsMatchAt needle []
  | d :: ds => charsMatchAt needle (d :: ds) || charsSub needle ds

/-- Python `needle in hay` on strings: substring containment. -/
def pyInStr (needle hay : String) : Bool := charsSub needle.data hay.data

/-- Python membership test `key in v` for a string key.  Dicts test key
presence, lists test element equality (a string equals no value of
another type), strings test substring containment; `None`, booleans and
integers raise `TypeError`. -/
def pyContainsKey (v : Value) (key : String) : Except String Bool :=
  match v with
  | .dict kvs => .ok (kvs.lookup key).isSome
  | .list xs => .ok (xs.toList.any fun el =>
      match el with
      | .str s => s == key
      | _ => false)
  | .str s => .ok (pyInStr key s)
  | .null => .error "argument of type \x27NoneType\x27 is not iterable"
  | .bool _ => .error "argument of type \x27bool\x27 is not iterable"
  | .int _ => .error "argument of type \x27int\x27 is not iterable"

/-- Python subscription `v[key]` with a string key, as the engine performs
it right after a successful membership test.  Dicts look the key up
(`KeyError` carries the repr of the key), lists and strings reject string
indices, the remaining types are not subscriptable. -/
def pyGetItem (v : Value) (key : String) : Except String Value :=
  match v with
  | .dict kvs =>
      match kvs.lookup key with
      | some x => .ok x
      | Option.none => .error ("\x27" ++ key ++ "\x27")
  | .list _ => .error "list indices must be integers or slices, not str"
  | .str _ => .error "string indices must be integers"
  | .null => .error "\x27NoneType\x27 object is not subscriptable"
  | .bool _ => .error "\x27bool\x27 object is not subscriptable"
  | .int _ => .error "\x27int\x27 object is not subscriptable"

/-- The key-alias loop of `_extract_players`: try the candidate keys in
order; a key that is present with a list value returns it, with a dict
value returns it wrapped; a key that is present with any other value
falls through to the next candidate (the `if`/`elif` in the source has
no `else`). -/
def extractPlayersLoop (pg : Value) : List String → Except String (Option (List Value))
  | [] => .ok Option.none
  | key :: rest =>
      match pyContainsKey pg key with
      | .error e => .error e
      | .ok false => extractPlayersLoop pg rest
      | .ok true =>
          match pyGetItem pg key with
          | .error e => .error e
          | .ok (.list xs) => .ok (some xs.toList)
          | .ok (.dict kvs) => .ok (some [Value.dict kvs])
          | .ok _ => extractPlayersLoop pg rest

/-- `ScoringAnalyzer._extract_players`. -/
def extract_players (pg : Value) : Except String (List Value) :=
  match extractPlayersLoop pg ["players", "player", "pairing", "members"] with
  | .error e => .error e
  | .ok (some ps) => .ok ps
  | .ok Option.none =>
      match pyContainsKey pg "name" with
      | .error e => .error e
      | .ok true => .ok [pg]
      | .ok false =>
          match pyContainsKey pg "scores" with
          | .error e => .error e
          | .ok true => .ok [pg]
          | .ok false => .ok []

/-- The key-alias loop of `_extract_scores`: a key present with a list
value returns it; a key present with a non-list value falls through to
the next candidate. -/
def extractScoresLoop (kvs : ValueDict) : List String → List Value
  | [] => []
  | key :: rest =>
      match kvs.lookup key with
      | some (.list xs) => xs.toList
      | some _ => extractScoresLoop kvs rest
      | Option.none => extractScoresLoop kvs rest

/-- `ScoringAnalyzer._extract_scores` (its argument is always a dict:
both callers skip non-dict players first). -/
def extract_scores (player : ValueDict) : List Value :=
  extractScoresLoop player ["score_array", "scores", "score", "holes", "hole_scores"]

/-- The two per-player half validities: `scores[0:9]` and `scores[9:18]`
fed to `_has_valid_scores`. -/
def halfFlags (scores : List Value) : Bool × Bool :=
  (has_valid_scores (scores.take 9), has_valid_scores ((scores.drop 9).take 9))

/-- Per-player body of the `analyze_round_scoring` loop, updating
`(total_players, total_front_9_scores, total_back_9_scores)`. -/
def processPlayer (counts : ℕ × ℕ × ℕ) (player : Value) : ℕ × ℕ × ℕ :=
  match player with
  | .dict kvs =>
      let scores := extract_scores kvs
      if 18 ≤ scores.length then
        let flags := halfFlags scores
        (counts.1 + 1,
         counts.2.1 + (if flags.1 then 1 else 0),
         counts.2.2 + (if flags.2 then 1 else 0))
      else
        (counts.1 + 1, counts.2.1, counts.2.2)
  | _ => counts

/-- Unwrapping of the `pairing_group` key performed by both loops on a
dict entry: the value under the key when present, the entry itself
otherwise. -/
def pairingGroupOf (kvs : ValueDict) : Value :=
  match kvs.lookup "pairing_group" with
  | some v => v
  | Option.none => Value.dict kvs

/-- Per-item body of the `analyze_round_scoring` loop: skip non-dict
entries, unwrap `pairing_group` when present, extract the players and
fold them.  Only player extraction can raise. -/
def processItem (counts : ℕ × ℕ × ℕ) (item : Value) : Except String (ℕ × ℕ × ℕ) :=
  match item with
  | .dict kvs =>
      match extract_players (pairingGroupOf kvs) with
      | .error e => .error e
      | .ok players => .ok (players.foldl processPlayer counts)
  | _ => .ok counts

/-- The guarded `for` loop of `analyze_round_scoring` over the tee sheet. -/
def runPassAux (counts : ℕ × ℕ × ℕ) : List Value → Except String (ℕ × ℕ × ℕ)
  | [] => .ok counts
  | item :: rest =>
      match processItem counts item with
      | .error e => .error e
      | .ok c => runPassAux c rest

/-- The whole counting pass of `analyze_round_scoring`. -/
def runPass (l : List Value) : Except String (ℕ × ℕ × ℕ) := runPassAux (0, 0, 0) l

/-- The post-pass decision of `analyze_round_scoring` (its `if` chain,
final fallback included). -/
def scoringDecision (totalPlayers f9 b9 : ℕ) : Bool × String :=
  if totalPlayers == 0 then (false, "No players found in tee sheet")
  else
    let hasF := decide (0 < f9)
    let hasB := decide (0 < b9)
    if hasF && hasB then
      (true, "Complete scoring detected: F9=" ++ toString f9 ++ ", B9=" ++ toString b9 ++ " players")
    else if hasF && !hasB then
      (false, "Only front 9 scores found (" ++ toString f9 ++ "/" ++ toString totalPlayers ++ " players)")
    else if hasB && !hasF then
      (false, "Only back 9 scores found (" ++ toString b9 ++ "/" ++ toString totalPlayers ++ " players)")
    else if !hasF && !hasB then
      (false, "No scores found on either front or back 9")
    else
      (false, "Unexpected scoring state")

/-- `ScoringAnalyzer.analyze_round_scoring`.  The argument is
`Option.none` when the caller passes `None` (the `if not tee_sheet_data`
guard treats `None` and the empty list alike). -/
def analyze_round_scoring (data : Option (List Value)) : Bool × String :=
  match data with
  | Option.none => (true, "No tee sheet data available")
  | some l =>
      if l.isEmpty then (true, "No tee sheet data available")
      else
        match runPass l with
        | .error e => (true, "Error analyzing scores: " ++ e)
        | .ok (t, f, b) => scoringDecision t f b

/-- The record returned by `get_detailed_analysis`. -/
structure DetailedAnalysis where
  total_players : ℕ
  front_9_players : ℕ
  back_9_players : ℕ
  complete_players : ℕ
  incomplete_players : ℕ
  is_flagged : Bool
  flag_reason : String
deriving Repr, DecidableEq

/-- Per-player body of the `get_detailed_analysis` loop, updating
`(total_players, front_9_players, back_9_players, complete_players)`. -/
def processPlayerDetailed (counts : ℕ × ℕ × ℕ × ℕ) (player : Value) : ℕ × ℕ × ℕ × ℕ :=
  match player with
  | .dict kvs =>
      let scores := extract_scores kvs
      if 18 ≤ scores.length then
        let flags := halfFlags scores
        (counts.1 + 1,
         counts.2.1 + (if flags.1 then 1 else 0),
         counts.2.2.1 + (if flags.2 then 1 else 0),
         counts.2.2.2 + (if flags.1 && flags.2 then 1 else 0))
      else
        (counts.1 + 1, counts.2.1, counts.2.2.1, counts.2.2.2)
  | _ => counts

/-- Per-item body of the `get_detailed_analysis` loop. -/
def processItemDetailed (counts : ℕ × ℕ × ℕ × ℕ) (item : Value) :
    Except String (ℕ × ℕ × ℕ × ℕ) :=
  match item with
  | .dict kvs =>
      match extract_players (pairingGroupOf kvs) with
      | .error e => .error e
      | .ok players => .ok (players.foldl processPlayerDetailed counts)
  | _ => .ok counts

/-- The guarded `for` loop of `get_detailed_analysis` over the tee sheet. -/
def runPassDetailedAux (counts : ℕ × ℕ × ℕ × ℕ) : List Value → Except String (ℕ × ℕ × ℕ × ℕ)
  | [] => .ok counts
  | item :: rest =>
      match processItemDetailed counts item with
      | .error e => .error e
      | .ok c => runPassDetailedAux c rest

/-- The whole counting pass of `get_detailed_analysis`. -/
def runPassDetailed (l : List Value) : Except String (ℕ × ℕ × ℕ × ℕ) :=
  runPassDetailedAux (0, 0, 0, 0) l

/-- `ScoringAnalyzer.get_detailed_analysis`. -/
def get_detailed_analysis (data : Option (List Value)) : DetailedAnalysis :=
  match data with
  | Option.none =>
      ⟨0, 0, 0, 0, 0, true, "No tee sheet data available"⟩
  | some l =>
      if l.isEmpty then ⟨0, 0, 0, 0, 0, true, "No tee sheet data available"⟩
      else
        match runPassDetailed l with
        | .error e => ⟨0, 0, 0, 0, 0, true, "Error analyzing scores: " ++ e⟩
        | .ok (t, f, b, c) =>
            let r := analyze_round_scoring data
            ⟨t, f, b, c, t - c, r.1, r.2⟩

/-! Helper lemmas relating the two traversals and bounding the counters. -/

/-- Forget the `complete_players` counter of the detailed pass. -/
def projCounts (c : ℕ × ℕ × ℕ × ℕ) : ℕ × ℕ × ℕ := (c.1, c.2.1, c.2.2.1)

theorem processPlayer_proj (a : ℕ × ℕ × ℕ × ℕ) (p : Value) :
    processPlayer (projCounts a) p = projCounts (processPlayerDetailed a p) := by
  cases p with
  | dict kvs =>
      simp only [processPlayer, processPlayerDetailed, projCounts]
      split <;> rfl
  | null => rfl
  | bool b => rfl
  | int n => rfl
  | str s => rfl
  | list xs => rfl

theorem foldl_processPlayer_proj (ps : List Value) (a : ℕ × ℕ × ℕ × ℕ) :
    ps.foldl processPlayer (projCounts a) = projCounts (ps.foldl processPlayerDetailed a) := by
  induction ps generalizing a with
  | nil => rfl
  | cons p rest ih => rw [List.foldl_cons, List.foldl_cons, processPlayer_proj, ih]

theorem processItem_proj (a : ℕ × ℕ × ℕ × ℕ) (item : Value) :
    processItem (projCounts a) item = (processItemDetailed a item).map projCounts := by
  cases item with
  | dict kvs =>
      simp only [processItem, processItemDetailed]
      cases hE : extract_players (pairingGroupOf kvs) <;>
        simp [Except.map, foldl_processPlayer_proj]
  | null => rfl
  | bool b => rfl
  | int n => rfl
  | str s => rfl
  | list xs => rfl

theorem runPassAux_proj (l : List Value) (a : ℕ × ℕ × ℕ × ℕ) :
    runPassAux (projCounts a) l = (runPassDetailedAux a l).map projCounts := by
  induction l generalizing a with
  | nil => rfl
  | cons item rest ih =>
      rw [runPassAux, runPassDetailedAux, processItem_proj]
      cases processItemDetailed a item with
      | error e => rfl
      | ok c => exact ih c

theorem runPass_proj (l : List Value) :
    runPass l = (runPassDetailed l).map projCounts :=
  runPassAux_proj l (0, 0, 0, 0)

/-- The front and back counters never exceed the player counter. -/
def countsInv (c : ℕ × ℕ × ℕ) : Prop := c.2.1 ≤ c.1 ∧ c.2.2 ≤ c.1

theorem processPlayer_inv {a : ℕ × ℕ × ℕ} (h : countsInv a) (p : Value) :
    countsInv (processPlayer a p) := by
  obtain ⟨h1, h2⟩ := h
  cases p with
  | dict kvs =>
      simp only [processPlayer]
      split
      · exact ⟨by dsimp only; split <;> omega, by dsimp only; split <;> omega⟩
      · exact ⟨Nat.le_succ_of_le h1, Nat.le_succ_of_le h2⟩
  | null => exact ⟨h1, h2⟩
  | bool b => exact ⟨h1, h2⟩
  | int n => exact ⟨h1, h2⟩
  | str s => exact ⟨h1, h2⟩
  | list xs => exact ⟨h1, h2⟩

theorem foldl_processPlayer_inv (ps : List Value) {a : ℕ × ℕ × ℕ} (h : countsInv a) :
    countsInv (ps.foldl processPlayer a) := by
  induction ps generalizing a with
  | nil => exact h
  | cons p rest ih => exact ih (processPlayer_inv h p)

theorem processItem_inv {a c : ℕ × ℕ × ℕ} (h : countsInv a) (item : Value)
    (hc : processItem a item = .ok c) : countsInv c := by
  cases item with
  | dict kvs =>
      simp only [processItem] at hc
      cases hE : extract_players (pairingGroupOf kvs) <;> rw [hE] at hc
      · exact absurd hc (by simp)
      · simp only [Except.ok.injEq] at hc
        exact hc ▸ foldl_processPlayer_inv _ h
  | null => simp only [processItem, Except.ok.injEq] at hc; exact hc ▸ h
  | bool b => simp only [processItem, Except.ok.injEq] at hc; exact hc ▸ h
  | int n => simp only [processItem, Except.ok.injEq] at hc; exact hc ▸ h
  | str s => simp only [processItem, Except.ok.injEq] at hc; exact hc ▸ h
  | list xs => simp only [processItem, Except.ok.injEq] at hc; exact hc ▸ h

theorem runPassAux_inv (l : List Value) {a c : ℕ × ℕ × ℕ} (h : countsInv a)
    (hc : runPassAux a l = .ok c) : countsInv c := by
  induction l generalizing a with
  | nil => simp [runPassAux] at hc; exact hc ▸ h
  | cons item rest ih =>
      rw [runPassAux] at hc
      cases hi : processItem a item with
      | error e => rw [hi] at hc; simp at hc
      | ok b => rw [hi] at hc; exact ih (processItem_inv h item hi) hc

theorem runPass_le {l : List Value} {t f b : ℕ} (h : runPass l = .ok (t, f, b)) :
    f ≤ t ∧ b ≤ t :=
  runPassAux_inv l ⟨Nat.le_refl 0, Nat.le_refl 0⟩ h

/-! Concrete tee sheets used to exercise the theorems. -/

/-- One pairing group, one player whose 18 scores are all recorded. -/
def demoComplete : List Value :=
  [vdict [("players", vlist [vdict [("name", .str "Test Player"),
     ("scores", vlist ([4, 5, 3, 4, 5, 4, 4, 3, 5,
                        4, 4, 5, 3, 4, 4, 5, 4, 3].map Value.int))]])]]

/-- One pairing group, one player with front-9 scores and nine nulls. -/
def demoFrontOnly : List Value :=
  [vdict [("players", vlist [vdict [("name", .str "Test Player"),
     ("scores", vlist ([4, 5, 3, 4, 5, 4, 4, 3, 5].map Value.int ++
                       List.replicate 9 Value.null))]])]]

/-- A tee sheet whose pairing-group wrapper holds an integer, so that the
membership test `"players" in 5` raises a `TypeError` inside the pass. -/
def demoError : List Value := [vdict [("pairing_group", Value.int 5)]]

/-! The claims. -/

/-- C4: for every empty or absent `teeSheetData` input,
`analyze_round_scoring` returns the flag with reason
"No tee sheet data available". -/
theorem claim_C4 (data : Option (List Value)) :
    data = Option.none ∨ data = some [] →
    analyze_round_scoring data = (true, "No tee sheet data available") := by
  rintro (rfl | rfl) <;> rfl

/-- Witness for C4 at the two concrete empty inputs. -/
theorem claim_C4_witness :
    analyze_round_scoring (some []) = (true, "No tee sheet data available") :=
  claim_C4 (some []) (Or.inr rfl)

/-- C2 (divergence witness): on the front-9-only tee sheet the code
returns `is_flagged = false`, while the claim (and the repository's own
`test_analyze_front_9_only`, and the docstring of
`analyze_round_scoring`) demand `is_flagged = true`. -/
theorem claim_C2 :
    analyze_round_scoring (some demoFrontOnly) =
      (false, "Only front 9 scores found (1/1 players)") := by rfl

/-- C3: an exception raised while traversing the payload is caught at
each public entry point and converted into a flagged result carrying the
exception's message.  (In this embedding the entry points are total by
construction, so no exception can escape; the theorem states the
conversion performed by the `except` handlers.) -/
theorem claim_C3 :
    (∀ (l : List Value) (e : String), runPass l = .error e →
      analyze_round_scoring (some l) = (true, "Error analyzing scores: " ++ e)) ∧
    (∀ (l : List Value) (e : String), runPassDetailed l = .error e →
      get_detailed_analysis (some l) =
        ⟨0, 0, 0, 0, 0, true, "Error analyzing scores: " ++ e⟩) := by
  constructor
  · intro l e h
    cases l with
    | nil => exact absurd h (by simp [runPass, runPassAux])
    | cons x xs => simp [analyze_round_scoring, h]
  · intro l e h
    cases l with
    | nil => exact absurd h (by simp [runPassDetailed, runPassDetailedAux])
    | cons x xs => simp [get_detailed_analysis, h]

/-- Witness for C3: the pass on `demoError` raises a `TypeError`, and
both entry points convert it into a flagged result with its message. -/
theorem claim_C3_witness :
    analyze_round_scoring (some demoError) =
      (true, "Error analyzing scores: argument of type \x27int\x27 is not iterable") ∧
    get_detailed_analysis (some demoError) =
      ⟨0, 0, 0, 0, 0, true,
       "Error analyzing scores: argument of type \x27int\x27 is not iterable"⟩ :=
  ⟨claim_C3.1 demoError _ rfl, claim_C3.2 demoError _ rfl⟩

/-- C8: every record returned by `get_detailed_analysis` — the
empty-input record and the exception-fallback record included —
satisfies `incomplete_players = total_players - complete_players`. -/
theorem claim_C8 (data : Option (List Value)) :
    (get_detailed_analysis data).incomplete_players =
      (get_detailed_analysis data).total_players -
        (get_detailed_analysis data).complete_players := by
  cases data with
  | none => rfl
  | some l =>
      cases l with
      | nil => rfl
      | cons x xs =>
          simp only [get_detailed_analysis, List.isEmpty_cons, Bool.false_eq_true,
            if_false]
          cases hd : runPassDetailed (x :: xs) with
          | error e => rfl
          | ok c => obtain ⟨t, f, b, comp⟩ := c; rfl

/-- C9: the flag and reason of `get_detailed_analysis` always equal the
pair returned by `analyze_round_scoring` on the same input. -/
theorem claim_C9 (data : Option (List Value)) :
    ((get_detailed_analysis data).is_flagged, (get_detailed_analysis data).flag_reason) =
      analyze_round_scoring data := by
  cases data with
  | none => rfl
  | some l =>
      cases l with
      | nil => rfl
      | cons x xs =>
          cases hd : runPassDetailed (x :: xs) with
          | error e =>
              have hp : runPass (x :: xs) = .error e := by
                rw [runPass_proj, hd]; rfl
              simp [get_detailed_analysis, analyze_round_scoring, hd, hp]
          | ok c =>
              obtain ⟨t, f, b, comp⟩ := c
              simp [get_detailed_analysis, hd]

theorem scoringDecision_complete {t f b : ℕ} (ht : t ≠ 0) (hf : 0 < f) (hb : 0 < b) :
    scoringDecision t f b =
      (true, "Complete scoring detected: F9=" ++ toString f ++ ", B9=" ++
        toString b ++ " players") := by
  simp [scoringDecision, ht, hf, hb]

theorem scoringDecision_front {t f : ℕ} (ht : t ≠ 0) (hf : 0 < f) :
    scoringDecision t f 0 =
      (false, "Only front 9 scores found (" ++ toString f ++ "/" ++
        toString t ++ " players)") := by
  simp [scoringDecision, ht, hf]

theorem scoringDecision_back {t b : ℕ} (ht : t ≠ 0) (hb : 0 < b) :
    scoringDecision t 0 b =
      (false, "Only back 9 scores found (" ++ toString b ++ "/" ++
        toString t ++ " players)") := by
  simp [scoringDecision, ht, hb]

/-- C1: whenever the pass completes with at least one front-9 and at
least one back-9 validation, the round is flagged with the
complete-scoring reason; when exactly one half validated, the round is
not flagged. -/
theorem claim_C1 (l : List Value) (t f b : ℕ) (h : runPass l = .ok (t, f, b)) :
    (0 < f ∧ 0 < b →
      analyze_round_scoring (some l) =
        (true, "Complete scoring detected: F9=" ++ toString f ++ ", B9=" ++
          toString b ++ " players")) ∧
    ((0 < f ∧ b = 0) ∨ (f = 0 ∧ 0 < b) →
      (analyze_round_scoring (some l)).1 = false) := by
  have hle := runPass_le h
  cases l with
  | nil =>
      simp only [runPass, runPassAux, Except.ok.injEq, Prod.mk.injEq] at h
      obtain ⟨-, hf0, hb0⟩ := h
      constructor
      · rintro ⟨hf, -⟩; omega
      · rintro (⟨hf, -⟩ | ⟨-, hb⟩) <;> omega
  | cons x xs =>
      have hA : analyze_round_scoring (some (x :: xs)) = scoringDecision t f b := by
        simp only [analyze_round_scoring, List.isEmpty_cons, Bool.false_eq_true,
          if_false, h]
      rw [hA]
      constructor
      · rintro ⟨hf, hb⟩
        exact scoringDecision_complete (by omega) hf hb
      · rintro (⟨hf, rfl⟩ | ⟨rfl, hb⟩)
        · rw [scoringDecision_front (by omega) hf]
        · rw [scoringDecision_back (by omega) hb]

/-- Witness for C1: the complete tee sheet is flagged, the front-only
tee sheet is not. -/
theorem claim_C1_witness :
    analyze_round_scoring (some demoComplete) =
      (true, "Complete scoring detected: F9=1, B9=1 players") ∧
    (analyze_round_scoring (some demoFrontOnly)).1 = false :=
  ⟨(claim_C1 demoComplete 1 1 1 rfl).1 ⟨Nat.one_pos, Nat.one_pos⟩,
   (claim_C1 demoFrontOnly 1 1 0 rfl).2 (Or.inl ⟨Nat.one_pos, rfl⟩)⟩

theorem front_reason_ne (s1 s2 : String) :
    "Only front 9 scores found (" ++ s1 ++ "/" ++ s2 ++ " players)" ≠
      "Unexpected scoring state" := by
  intro h
  have h2 := congrArg String.length h
  simp only [String.length_append] at h2
  have e1 : ("Only front 9 scores found (" : String).length = 27 := by decide
  have e2 : ("/" : String).length = 1 := by decide
  have e3 : (" players)" : String).length = 9 := by decide
  have e4 : ("Unexpected scoring state" : String).length = 24 := by decide
  rw [e1, e2, e3, e4] at h2
  omega

theorem back_reason_ne (s1 s2 : String) :
    "Only back 9 scores found (" ++ s1 ++ "/" ++ s2 ++ " players)" ≠
      "Unexpected scoring state" := by
  intro h
  have h2 := congrArg String.length h
  simp only [String.length_append] at h2
  have e1 : ("Only back 9 scores found (" : String).length = 26 := by decide
  have e2 : ("/" : String).length = 1 := by decide
  have e3 : (" players)" : String).length = 9 := by decide
  have e4 : ("Unexpected scoring state" : String).length = 24 := by decide
  rw [e1, e2, e3, e4] at h2
  omega

theorem scoringDecision_ne (t f b : ℕ) :
    scoringDecision t f b ≠ (false, "Unexpected scoring state") := by
  intro hEq
  simp only [scoringDecision] at hEq
  by_cases ht : t = 0
  · simp [ht] at hEq
  · by_cases hf : 0 < f <;> by_cases hb : 0 < b <;> simp [ht, hf, hb] at hEq
    · exact front_reason_ne _ _ hEq
    · exact back_reason_ne _ _ hEq

/-- C10: when the pass completes, the trailing catch-all branch of the
decision chain is unreachable: the result is never
`(false, "Unexpected scoring state")`. -/
theorem claim_C10 (l : List Value) (c : ℕ × ℕ × ℕ) (h : runPass l = .ok c) :
    analyze_round_scoring (some l) ≠ (false, "Unexpected scoring state") := by
  obtain ⟨t, f, b⟩ := c
  cases l with
  | nil => simp [analyze_round_scoring]
  | cons x xs =>
      simp only [analyze_round_scoring, List.isEmpty_cons, Bool.false_eq_true,
        if_false, h]
      exact scoringDecision_ne t f b

/-- Witness for C10 at the empty tee sheet, whose pass completes with
all counters zero. -/
theorem claim_C10_witness :
    analyze_round_scoring (some []) ≠ (false, "Unexpected scoring state") :=
  claim_C10 [] (0, 0, 0) rfl

/-- A 9-element slice whose only non-skipped element is a
whitespace-only string: `int(" ")` fails, yet `" ".strip()` is empty, so
the fallback branch does not accept it. -/
def demoBlankSlice : List Value :=
  [.str " ", .null, .null, .null, .null, .null, .null, .null, .null]

/-- Counterexample to C5 as stated: the head of `demoBlankSlice` is not
skipped by the null/empty-string/zero/empty-mapping rules, integer
parsing fails on it, its string form is non-empty and differs from the
literal text `\x7b\x7d` — yet the slice is judged invalid, because the
code additionally strips whitespace before testing emptiness. -/
theorem claim_C5_cex :
    (demoBlankSlice.length = 9 ∧
     pySkip (Value.str " ") = false ∧
     pyToInt (Value.str " ") = Option.none ∧
     pyStr (Value.str " ") ≠ "" ∧
     pyStr (Value.str " ") ≠ "\x7b\x7d") ∧
    has_valid_scores demoBlankSlice = false := by decide

theorem validScore_of_unparsed {e : Value} (hskip : pySkip e = false)
    (hint : pyToInt e = Option.none) (htrim : pyStrip (pyStr e) ≠ "")
    (hbr : pyStr e ≠ "\x7b\x7d") : validScore e = true := by
  unfold validScore
  rw [hskip, hint]
  simp [htrim, hbr]

theorem has_valid_scores_of_mem {slice : List Value} {e : Value} (hm : e ∈ slice)
    (hv : validScore e = true) : has_valid_scores slice = true := by
  induction slice with
  | nil => cases hm
  | cons x rest ih =>
      rw [has_valid_scores]
      by_cases hx : validScore x = true
      · simp [hx]
      · have hmem : e ∈ rest := by
          cases hm with
          | head => exact absurd hv hx
          | tail _ hmem => exact hmem
        simp [hx, ih hmem]

/-- C5 (amended): a 9-element slice containing an element that is not
skipped, fails integer parsing, and whose string form is non-empty
after stripping whitespace and differs from `\x7b\x7d`, is judged
valid. -/
theorem claim_C5 (slice : List Value) (e : Value) :
    slice.length = 9 → e ∈ slice →
    pySkip e = false → pyToInt e = Option.none →
    pyStrip (pyStr e) ≠ "" → pyStr e ≠ "\x7b\x7d" →
    has_valid_scores slice = true :=
  fun _ hm hskip hint htrim hbr =>
    has_valid_scores_of_mem hm (validScore_of_unparsed hskip hint htrim hbr)

/-- A 9-element slice whose only non-skipped element is the
non-numeric text "X". -/
def demoXSlice : List Value :=
  [.str "X", .null, .null, .null, .null, .null, .null, .null, .null]

/-- Witness for C5 on the slice containing "X". -/
theorem claim_C5_witness : has_valid_scores demoXSlice = true :=
  claim_C5 demoXSlice (Value.str "X") rfl (List.mem_cons_self _ _) rfl rfl
    (by decide) (by decide)

/-- Spec-side rendition of the amended C6 wording: the value of the
first alias key whose value is a sequence or a mapping. -/
def specAliasSearch (kvs : ValueDict) : List String → Option Value
  | [] => Option.none
  | key :: rest =>
      match kvs.lookup key with
      | some (.list xs) => some (.list xs)
      | some (.dict d) => some (.dict d)
      | _ => specAliasSearch kvs rest

/-- Spec-side rendition of the amended C6 wording, on the alias keys of
`_extract_players`. -/
def specFirstAlias (kvs : ValueDict) : Option Value :=
  specAliasSearch kvs ["players", "player", "pairing", "members"]

theorem aliasLoop_spec (kvs : ValueDict) (keys : List String) :
    (∀ xs, specAliasSearch kvs keys = some (.list xs) →
      extractPlayersLoop (.dict kvs) keys = .ok (some xs.toList)) ∧
    (∀ d, specAliasSearch kvs keys = some (.dict d) →
      extractPlayersLoop (.dict kvs) keys = .ok (some [Value.dict d])) := by
  induction keys with
  | nil =>
      exact ⟨fun xs h => by simp [specAliasSearch] at h,
             fun d h => by simp [specAliasSearch] at h⟩
  | cons key rest ih =>
      cases hk : kvs.lookup key with
      | none =>
          refine ⟨fun xs h => ?_, fun d h => ?_⟩ <;>
            simp only [specAliasSearch, hk] at h <;>
            simp only [extractPlayersLoop, pyContainsKey, hk, Option.isSome]
          · exact ih.1 xs h
          · exact ih.2 d h
      | some v =>
          cases v with
          | list xs0 =>
              refine ⟨fun xs h => ?_, fun d h => ?_⟩ <;>
                simp only [specAliasSearch, hk, Option.some.injEq] at h
              · obtain rfl : xs0 = xs := by
                  cases h
                  rfl
                simp [extractPlayersLoop, pyContainsKey, hk, pyGetItem]
              · exact absurd h (by intro hc; cases hc)
          | dict d0 =>
              refine ⟨fun xs h => ?_, fun d h => ?_⟩ <;>
                simp only [specAliasSearch, hk, Option.some.injEq] at h
              · exact absurd h (by intro hc; cases hc)
              · obtain rfl : d0 = d := by
                  cases h
                  rfl
                simp [extractPlayersLoop, pyContainsKey, hk, pyGetItem]
          | null =>
              refine ⟨fun xs h => ?_, fun d h => ?_⟩ <;>
                simp only [specAliasSearch, hk] at h <;>
                simp only [extractPlayersLoop, pyContainsKey, hk, Option.isSome,
                  pyGetItem]
              · exact ih.1 xs h
              · exact ih.2 d h
          | bool b0 =>
              refine ⟨fun xs h => ?_, fun d h => ?_⟩ <;>
                simp only [specAliasSearch, hk] at h <;>
                simp only [extractPlayersLoop, pyContainsKey, hk, Option.isSome,
                  pyGetItem]
              · exact ih.1 xs h
              · exact ih.2 d h
          | int n0 =>
              refine ⟨fun xs h => ?_, fun d h => ?_⟩ <;>
                simp only [specAliasSearch, hk] at h <;>
                simp only [extractPlayersLoop, pyContainsKey, hk, Option.isSome,
                  pyGetItem]
              · exact ih.1 xs h
              · exact ih.2 d h
          | str s0 =>
              refine ⟨fun xs h => ?_, fun d h => ?_⟩ <;>
                simp only [specAliasSearch, hk] at h <;>
                simp only [extractPlayersLoop, pyContainsKey, hk, Option.isSome,
                  pyGetItem]
              · exact ih.1 xs h
              · exact ih.2 d h

/-- C6 (amended): the first alias key whose value is a sequence or a
mapping determines the result of `_extract_players` — a sequence is
returned unmodified, a mapping is wrapped into a one-element sequence;
alias keys present with any other kind of value are skipped. -/
theorem claim_C6 (kvs : ValueDict) :
    (∀ xs, specFirstAlias kvs = some (Value.list xs) →
      extract_players (Value.dict kvs) = .ok xs.toList) ∧
    (∀ d, specFirstAlias kvs = some (Value.dict d) →
      extract_players (Value.dict kvs) = .ok [Value.dict d]) := by
  constructor
  · intro xs h
    have hl := (aliasLoop_spec kvs _).1 xs h
    simp [extract_players, hl]
  · intro d h
    have hl := (aliasLoop_spec kvs _).2 d h
    simp [extract_players, hl]

/-- A pairing group whose first alias key `players` holds an integer. -/
def pgFirstAliasInt : Value := vdict [("players", Value.int 5)]

/-- A pairing group whose first alias key `players` holds the same
integer, followed by a `player` alias holding a list. -/
def pgFallThrough : Value :=
  vdict [("players", Value.int 5),
         ("player", vlist [vdict [("name", Value.str "x")]])]

/-- Counterexample to C6 as stated: both pairing groups have `players`
as their first present alias key, with the same value `5`, yet the
results differ — the search fell through to the later alias key
`player` in the second group, so the result is not determined solely by
the first alias key present. -/
theorem claim_C6_cex :
    extract_players pgFirstAliasInt = .ok [] ∧
    extract_players pgFallThrough = .ok [vdict [("name", Value.str "x")]] :=
  ⟨rfl, rfl⟩

/-- A pairing group with a two-player list under `players`. -/
def pgPlayersList : Value :=
  vdict [("players", vlist [vdict [("name", Value.str "Player 1")],
                            vdict [("name", Value.str "Player 2")]])]

/-- A pairing group with a single player mapping under `player`. -/
def pgSinglePlayer : Value :=
  vdict [("player", vdict [("name", Value.str "Single Player")])]

/-- Witness for the amended C6: a list value is returned unmodified, a
mapping value is wrapped. -/
theorem claim_C6_witness :
    extract_players pgPlayersList =
      .ok [vdict [("name", Value.str "Player 1")],
           vdict [("name", Value.str "Player 2")]] ∧
    extract_players pgSinglePlayer =
      .ok [vdict [("name", Value.str "Single Player")]] := by
  constructor
  · exact (claim_C6 _).1
      (ValueList.ofList [vdict [("name", Value.str "Player 1")],
                         vdict [("name", Value.str "Player 2")]]) rfl
  · exact (claim_C6 _).2
      (ValueDict.ofList [("name", Value.str "Single Player")]) rfl

/-- C7: a player whose extracted score list has fewer than 18 elements
is counted in `total_players` by both traversals but contributes to
neither half count; and for longer lists the two half validities only
examine the first 18 elements (slices `[0,9)` and `[9,18)`). -/
theorem claim_C7 :
    (∀ (counts : ℕ × ℕ × ℕ) (kvs : ValueDict),
        (extract_scores kvs).length < 18 →
        processPlayer counts (Value.dict kvs) =
          (counts.1 + 1, counts.2.1, counts.2.2)) ∧
    (∀ (counts : ℕ × ℕ × ℕ × ℕ) (kvs : ValueDict),
        (extract_scores kvs).length < 18 →
        processPlayerDetailed counts (Value.dict kvs) =
          (counts.1 + 1, counts.2.1, counts.2.2.1, counts.2.2.2)) ∧
    (∀ (s : List Value), 18 ≤ s.length → halfFlags s = halfFlags (s.take 18)) := by
  refine ⟨?_, ?_, ?_⟩
  · intro counts kvs h
    simp [processPlayer, Nat.not_le.mpr h]
  · intro counts kvs h
    simp [processPlayerDetailed, Nat.not_le.mpr h]
  · intro s _
    simp [halfFlags, List.take_take, List.drop_take]

/-- Witness for C7: a one-score player bumps only the player counters,
and the half validities of an 18-null list agree with those of its
18-element prefix. -/
theorem claim_C7_witness :
    processPlayer (0, 0, 0) (vdict [("scores", vlist [Value.int 4])]) = (1, 0, 0) ∧
    processPlayerDetailed (0, 0, 0, 0) (vdict [("scores", vlist [Value.int 4])]) =
      (1, 0, 0, 0) ∧
    halfFlags (List.replicate 18 Value.null) =
      halfFlags ((List.replicate 18 Value.null).take 18) :=
  ⟨claim_C7.1 (0, 0, 0) _ (by decide),
   claim_C7.2.1 (0, 0, 0, 0) _ (by decide),
   claim_C7.2.2 _ (by decide)⟩

end TGA
